import Mathlib

/-!
# Verification of the Connectchat chat data-access layer

Shallow embedding of the in-memory storage layer (`MemStorage` in
`server/storage.ts`) and of the route-level operations that complete the
storage contracts (`registerRoutes` in the server routes file: user
registration with its duplicate-username check, and the find-or-create
direct chat operation).

Modelling notes:
* JavaScript `Map` collections keyed by the entity id are embedded as lists
  in insertion order (`Map` iteration order).  New entities are only ever
  inserted under a fresh id, which in the list model is an append;
  `Map.set` on an existing key (only done by `updateUserOnlineStatus`)
  keeps the entry's position, which in the list model is a pointwise `map`.
* `Date` timestamps are embedded as `Nat`; every operation that reads the
  clock (`new Date()`) takes the current time as an explicit argument.
* `Array.prototype.sort` is stable (ES2019).  A stable sort with respect to
  a total preorder has a uniquely determined result, so the descending
  sort by `sentAt` in `getChatMessages` is embedded by the stable
  `List.insertionSort` with the corresponding comparison.
* The TypeScript non-null assertion `this.users.get(...)!` followed by a
  truthiness `filter` is embedded by pairing with an `Option User` and
  filtering on `Option.isSome`.
-/

/-- A row of the `users` collection (`shared/schema.ts`). -/
structure ChatUser where
  id : Nat
  username : String
  isOnline : Bool
  lastSeen : Nat
  deriving Repr, DecidableEq

/-- A row of the `chats` collection (`shared/schema.ts`). -/
structure Chat where
  id : Nat
  name : Option String
  type : String
  createdBy : Nat
  createdAt : Nat
  deriving Repr, DecidableEq

/-- A row of the `chatMembers` collection (`shared/schema.ts`). -/
structure ChatMember where
  id : Nat
  chatId : Nat
  userId : Nat
  joinedAt : Nat
  deriving Repr, DecidableEq

/-- A row of the `messages` collection (`shared/schema.ts`). -/
structure Message where
  id : Nat
  chatId : Nat
  senderId : Nat
  content : String
  sentAt : Nat
  deriving Repr, DecidableEq

/-- The private state of `MemStorage`: the four entity collections plus the
four id counters. -/
structure StoreState where
  users : List ChatUser
  chats : List Chat
  chatMembers : List ChatMember
  messages : List Message
  currentUserId : Nat
  currentChatId : Nat
  currentChatMemberId : Nat
  currentMessageId : Nat
  deriving Repr, DecidableEq

/-- The `ChatWithMembers` projection (`shared/schema.ts`): a chat together
with its resolved member list, optional last message, and unread count.
The TypeScript type spreads the chat's fields at top level; the embedding
keeps them in the `chat` field. -/
structure ChatWithMembers where
  chat : Chat
  members : List (ChatMember × Option ChatUser)
  lastMessage : Option (Message × Option ChatUser)
  unreadCount : Nat
  deriving Repr, DecidableEq

/-- The fresh `MemStorage` instance: empty maps, all counters at 1. -/
def emptyStore : StoreState :=
  { users := [], chats := [], chatMembers := [], messages := []
    currentUserId := 1, currentChatId := 1
    currentChatMemberId := 1, currentMessageId := 1 }

/-- `MemStorage.getUser`: `this.users.get(id)`. -/
def getUser (s : StoreState) (id : Nat) : Option ChatUser :=
  s.users.find? (fun u => u.id == id)

/-- `MemStorage.getUserByUsername`: find by exact (case-sensitive) username. -/
def getUserByUsername (s : StoreState) (username : String) : Option ChatUser :=
  s.users.find? (fun u => u.username == username)

/-- `MemStorage.createUser`: assign the next user id, set `isOnline := true`
and `lastSeen := now`, and insert.  No duplicate check happens here — the
route performs it (see `registerUser`). -/
def createUser (s : StoreState) (username : String) (now : Nat) : ChatUser × StoreState :=
  let id := s.currentUserId
  let user : ChatUser := { id := id, username := username, isOnline := true, lastSeen := now }
  (user, { s with users := s.users ++ [user], currentUserId := id + 1 })

/-- The `POST /api/users` route: reject when `getUserByUsername` finds an
existing user ("Username already taken", the `DuplicateUsername` error of
the spec), otherwise delegate to `createUser`.  On rejection the store is
untouched. -/
def registerUser (s : StoreState) (username : String) (now : Nat) :
    Except String ChatUser × StoreState :=
  match getUserByUsername s username with
  | some _ => (Except.error "Username already taken", s)
  | none =>
    let (user, s1) := createUser s username now
    (Except.ok user, s1)

/-- `MemStorage.updateUserOnlineStatus`: when the user id resolves, update
that user's `isOnline` and `lastSeen` fields in place; otherwise do
nothing. -/
def updateUserOnlineStatus (s : StoreState) (userId : Nat) (isOnline : Bool) (now : Nat) :
    StoreState :=
  match getUser s userId with
  | none => s
  | some _ =>
    { s with users := s.users.map (fun u =>
        if u.id == userId then { u with isOnline := isOnline, lastSeen := now } else u) }

/-- `MemStorage.getChat`: `this.chats.get(id)`. -/
def getChat (s : StoreState) (id : Nat) : Option Chat :=
  s.chats.find? (fun c => c.id == id)

/-- `MemStorage.addChatMember`: assign the next member id and insert the
membership row.  No uniqueness or existence check. -/
def addChatMember (s : StoreState) (chatId : Nat) (userId : Nat) (now : Nat) : StoreState :=
  let id := s.currentChatMemberId
  let member : ChatMember := { id := id, chatId := chatId, userId := userId, joinedAt := now }
  { s with chatMembers := s.chatMembers ++ [member], currentChatMemberId := id + 1 }

/-- `MemStorage.createChat`: assign the next chat id, insert the chat, then
add the creator as the first member. -/
def createChat (s : StoreState) (type : String) (name : Option String) (createdBy : Nat)
    (now : Nat) : Chat × StoreState :=
  let id := s.currentChatId
  let newChat : Chat :=
    { id := id, name := name, type := type, createdBy := createdBy, createdAt := now }
  let s1 := { s with chats := s.chats ++ [newChat], currentChatId := id + 1 }
  (newChat, addChatMember s1 id createdBy now)

/-- `MemStorage.getChatMembers`: the chat's membership rows, each paired
with the lookup of its user (`this.users.get(member.userId)!`), keeping
only the rows whose user resolves (`.filter(member => member.user)`). -/
def getChatMembers (s : StoreState) (chatId : Nat) : List (ChatMember × Option ChatUser) :=
  ((s.chatMembers.filter (fun m => m.chatId == chatId)).map
      (fun m => (m, getUser s m.userId))).filter
    (fun p => p.2.isSome)

/-- The chat's messages in `Map` (insertion) order:
`Array.from(this.messages.values()).filter(m => m.chatId === chatId)`. -/
def messagesOf (s : StoreState) (chatId : Nat) : List Message :=
  s.messages.filter (fun m => m.chatId == chatId)

/-- `.sort((a, b) => b.sentAt.getTime() - a.sentAt.getTime())`: the stable
descending sort by `sentAt` (see the modelling notes on sort stability). -/
def sortDescBySentAt (l : List Message) : List Message :=
  l.insertionSort (fun a b => b.sentAt ≤ a.sentAt)

/-- `.slice(0, limit)` applied to the descending-sorted chat messages: the
(at most) `limit` newest messages, newest first. -/
def newestWindow (s : StoreState) (chatId : Nat) (limit : Nat) : List Message :=
  (sortDescBySentAt (messagesOf s chatId)).take limit

/-- `MemStorage.getChatMessages`: filter to the chat, sort newest-first,
take `limit`, reverse to oldest-first, then attach each sender
(`this.users.get(message.senderId)!`) and keep only the messages whose
sender resolves. -/
def getChatMessages (s : StoreState) (chatId : Nat) (limit : Nat) :
    List (Message × Option ChatUser) :=
  (((newestWindow s chatId limit).reverse).map
      (fun m => (m, getUser s m.senderId))).filter
    (fun p => p.2.isSome)

/-- `MemStorage.getChatWithMembers`: resolve the chat (absent chat gives
`undefined`), its members, its most recent message (`getChatMessages` with
limit 1), and a constant `unreadCount := 0`. -/
def getChatWithMembers (s : StoreState) (id : Nat) : Option ChatWithMembers :=
  match getChat s id with
  | none => none
  | some chat =>
    some { chat := chat
           members := getChatMembers s id
           lastMessage := (getChatMessages s id 1).head?
           unreadCount := 0 }

/-- `MemStorage.getUserChats`: one assembly attempt per membership row of
the user, dropping the rows whose chat fails to assemble
(`.filter(chat => chat !== undefined)`). -/
def getUserChats (s : StoreState) (userId : Nat) : List ChatWithMembers :=
  (s.chatMembers.filter (fun m => m.userId == userId)).filterMap
    (fun m => getChatWithMembers s m.chatId)

/-- `MemStorage.createMessage`: assign the next message id and `sentAt`,
and insert.  No content validation and no existence check on `chatId` or
`senderId`. -/
def createMessage (s : StoreState) (chatId : Nat) (senderId : Nat) (content : String)
    (now : Nat) : Message × StoreState :=
  let id := s.currentMessageId
  let newMessage : Message :=
    { id := id, chatId := chatId, senderId := senderId, content := content, sentAt := now }
  (newMessage, { s with messages := s.messages ++ [newMessage], currentMessageId := id + 1 })

/-- `MemStorage.getUnreadMessageCount`: the constant 0 placeholder. -/
def getUnreadMessageCount (s : StoreState) (chatId : Nat) (userId : Nat) : Nat :=
  let _ := s
  let _ := chatId
  let _ := userId
  0

/-- The existing-direct-chat test of the `POST /api/chats/direct` route:
`chat.type === 'direct' && chat.members.length === 2 &&
chat.members.some(member => member.userId === userId2)`. -/
def isDirectMatch (userId2 : Nat) (cw : ChatWithMembers) : Bool :=
  cw.chat.type == "direct" && cw.members.length == 2 &&
    cw.members.any (fun m => m.1.userId == userId2)

/-- The `POST /api/chats/direct` route: scan `userId1`'s chats for an
existing two-member direct chat containing `userId2`; if found return it
unchanged, otherwise create a direct chat (creator `userId1`), add
`userId2` as the second member, and return the assembled chat. -/
def findOrCreateDirect (s : StoreState) (userId1 : Nat) (userId2 : Nat) (now : Nat) :
    Option ChatWithMembers × StoreState :=
  match (getUserChats s userId1).find? (isDirectMatch userId2) with
  | some existingChat => (some existingChat, s)
  | none =>
    let (chat, s1) := createChat s "direct" none userId1 now
    let s2 := addChatMember s1 chat.id userId2 now
    (getChatWithMembers s2 chat.id, s2)

/-- The membership rows of a chat, in insertion order. -/
def memberRows (s : StoreState) (chatId : Nat) : List ChatMember :=
  s.chatMembers.filter (fun m => m.chatId == chatId)

/-- The member user ids of a chat, in insertion order (with multiplicity). -/
def memberIds (s : StoreState) (chatId : Nat) : List Nat :=
  (memberRows s chatId).map (fun m => m.userId)

/-- Whether a list of user ids, viewed as a set, is exactly the unordered
pair of the two given ids. -/
def idSetIsPair (l : List Nat) (a b : Nat) : Bool :=
  l.all (fun x => x == a || x == b) && l.any (fun x => x == a) && l.any (fun x => x == b)

example : (createUser emptyStore "alice" 7).1.id = 1 := by decide

example :
    (registerUser ((registerUser emptyStore "alice" 0).2) "alice" 1).1 =
      Except.error "Username already taken" := rfl

/-! ## Shared concrete stores used by witnesses -/

/-- A store holding users "alice" (id 1) and "bob" (id 2). -/
def storeAB : StoreState := (registerUser ((registerUser emptyStore "alice" 0).2) "bob" 1).2

/-- `storeAB` after user 1 created the group chat "Team" (chat id 1). -/
def storeABChat : StoreState := (createChat storeAB "group" (some "Team") 1 5).2

/-- The assembled view of chat 1 in `storeABChat`. -/
def cwTeam : ChatWithMembers :=
  { chat := { id := 1, name := some "Team", type := "group", createdBy := 1, createdAt := 5 }
    members := [({ id := 1, chatId := 1, userId := 1, joinedAt := 5 },
                 some { id := 1, username := "alice", isOnline := true, lastSeen := 0 })]
    lastMessage := none
    unreadCount := 0 }

/-! ## C7: the unread count is always 0 -/

/-- C7: for every store state, the `unreadCount` field of any assembled
`ChatWithMembers` is 0, and `getUnreadMessageCount` is 0 for every
chat/user pair. -/
theorem unreadCount_always_zero (s : StoreState) (id c u : Nat) (cw : ChatWithMembers) :
    (getChatWithMembers s id = some cw → cw.unreadCount = 0) ∧
    getUnreadMessageCount s c u = 0 := by
  refine ⟨fun h => ?_, rfl⟩
  unfold getChatWithMembers at h
  cases hc : getChat s id with
  | none => rw [hc] at h; exact absurd h (by simp)
  | some chat =>
    rw [hc] at h
    simp only [Option.some.injEq] at h
    rw [← h]

/-- Witness for C7 at a concrete store with one chat. -/
theorem unreadCount_always_zero_witness :
    cwTeam.unreadCount = 0 ∧ getUnreadMessageCount storeABChat 1 2 = 0 :=
  ⟨(unreadCount_always_zero storeABChat 1 1 2 cwTeam).1 (by decide),
   (unreadCount_always_zero storeABChat 1 1 2 cwTeam).2⟩

/-! ## C3: no empty-content check exists in `createMessage` -/

/-- C3 counterexample: `createMessage` with empty content does not fail and
does change the message collection — there is no `EmptyContent` error in
the code. -/
theorem createMessage_empty_content_not_rejected :
    ((createMessage emptyStore 1 1 "" 0).2).messages =
      [{ id := 1, chatId := 1, senderId := 1, content := "", sentAt := 0 }] ∧
    ((createMessage emptyStore 1 1 "" 0).2).messages ≠ emptyStore.messages := by
  refine ⟨by decide, by decide⟩

/-- C3 amended: `createMessage` performs no content validation: for content
that is empty or trims to empty it succeeds all the same, storing a
`Message` with that content and consuming a message id. -/
theorem createMessage_accepts_blank_content (s : StoreState) (chatId senderId : Nat)
    (content : String) (now : Nat) (hblank : content = "" ∨ content.trim = "") :
    (createMessage s chatId senderId content now).1.content = content ∧
    (createMessage s chatId senderId content now).2.messages =
      s.messages ++ [(createMessage s chatId senderId content now).1] ∧
    (createMessage s chatId senderId content now).2.currentMessageId =
      s.currentMessageId + 1 := by
  exact ⟨rfl, rfl, rfl⟩

/-- Witness for the amended C3 at empty content on a concrete store. -/
theorem createMessage_accepts_blank_content_witness :
    (createMessage storeAB 1 1 "" 9).1.content = "" ∧
    (createMessage storeAB 1 1 "" 9).2.messages =
      storeAB.messages ++ [(createMessage storeAB 1 1 "" 9).1] ∧
    (createMessage storeAB 1 1 "" 9).2.currentMessageId =
      storeAB.currentMessageId + 1 :=
  createMessage_accepts_blank_content storeAB 1 1 "" 9 (Or.inl rfl)

/-! ## C10: `createMessage` performs no existence checks -/

/-- C10: even when neither the chat id nor the sender id resolves to any
stored entity, `createMessage` succeeds and stores a message with a fresh
id and exactly those foreign keys; the other collections are untouched. -/
theorem createMessage_no_existence_check (s : StoreState) (chatId senderId : Nat)
    (content : String) (now : Nat)
    (hchat : getChat s chatId = none) (huser : getUser s senderId = none) :
    (createMessage s chatId senderId content now).1.id = s.currentMessageId ∧
    (createMessage s chatId senderId content now).1.chatId = chatId ∧
    (createMessage s chatId senderId content now).1.senderId = senderId ∧
    (createMessage s chatId senderId content now).1.sentAt = now ∧
    (createMessage s chatId senderId content now).2.messages =
      s.messages ++ [(createMessage s chatId senderId content now).1] ∧
    (createMessage s chatId senderId content now).2.currentMessageId =
      s.currentMessageId + 1 ∧
    (createMessage s chatId senderId content now).2.users = s.users ∧
    (createMessage s chatId senderId content now).2.chats = s.chats ∧
    (createMessage s chatId senderId content now).2.chatMembers = s.chatMembers := by
  exact ⟨rfl, rfl, rfl, rfl, rfl, rfl, rfl, rfl, rfl⟩

/-- Witness for C10: chat id 42 and sender id 99 resolve to nothing in
`storeAB`, yet the message is stored. -/
theorem createMessage_no_existence_check_witness :
    (createMessage storeAB 42 99 "ghost" 3).1.id = storeAB.currentMessageId ∧
    (createMessage storeAB 42 99 "ghost" 3).1.chatId = 42 ∧
    (createMessage storeAB 42 99 "ghost" 3).1.senderId = 99 ∧
    (createMessage storeAB 42 99 "ghost" 3).1.sentAt = 3 ∧
    (createMessage storeAB 42 99 "ghost" 3).2.messages =
      storeAB.messages ++ [(createMessage storeAB 42 99 "ghost" 3).1] ∧
    (createMessage storeAB 42 99 "ghost" 3).2.currentMessageId =
      storeAB.currentMessageId + 1 ∧
    (createMessage storeAB 42 99 "ghost" 3).2.users = storeAB.users ∧
    (createMessage storeAB 42 99 "ghost" 3).2.chats = storeAB.chats ∧
    (createMessage storeAB 42 99 "ghost" 3).2.chatMembers = storeAB.chatMembers :=
  createMessage_no_existence_check storeAB 42 99 "ghost" 3 (by decide) (by decide)

/-! ## C4: duplicate usernames are rejected by the registration operation -/

/-- Helper: the duplicate branch of `registerUser`. -/
theorem registerUser_of_some (s : StoreState) (u : String) (now : Nat) (w : ChatUser)
    (hw : getUserByUsername s u = some w) :
    registerUser s u now = (Except.error "Username already taken", s) := by
  unfold registerUser
  rw [hw]

/-- Helper: the fresh branch of `registerUser`. -/
theorem registerUser_of_none (s : StoreState) (u : String) (now : Nat)
    (hn : getUserByUsername s u = none) :
    registerUser s u now =
      (Except.ok { id := s.currentUserId, username := u, isOnline := true, lastSeen := now },
       { s with
          users := s.users ++
            [{ id := s.currentUserId, username := u, isOnline := true, lastSeen := now }]
          currentUserId := s.currentUserId + 1 }) := by
  unfold registerUser createUser
  rw [hn]

/-- C4: registration (`POST /api/users`): when a user with the exact
case-sensitive username already exists, registration fails with the
duplicate-username error and the store is unchanged; on a fresh username
the first call succeeds and a second call with the same username fails,
leaving the store as the first call left it. -/
theorem registerUser_duplicate_username (s : StoreState) (u : String) (now1 now2 : Nat) :
    (∀ w, getUserByUsername s u = some w →
        registerUser s u now1 = (Except.error "Username already taken", s)) ∧
    (getUserByUsername s u = none →
      (∃ user, (registerUser s u now1).1 = Except.ok user ∧ user.username = u ∧
        user.isOnline = true ∧ user.lastSeen = now1 ∧ user.id = s.currentUserId) ∧
      registerUser ((registerUser s u now1).2) u now2 =
        (Except.error "Username already taken", (registerUser s u now1).2)) := by
  constructor
  · intro w hw
    exact registerUser_of_some s u now1 w hw
  · intro hn
    have h1 := registerUser_of_none s u now1 hn
    have hfind : getUserByUsername
        { s with
            users := s.users ++
              [{ id := s.currentUserId, username := u, isOnline := true, lastSeen := now1 }]
            currentUserId := s.currentUserId + 1 } u =
        some { id := s.currentUserId, username := u, isOnline := true, lastSeen := now1 } := by
      unfold getUserByUsername at hn ⊢
      simp only [List.find?_append, hn, Option.none_or]
      simp
    refine ⟨⟨_, by rw [h1], rfl, rfl, rfl, rfl⟩, ?_⟩
    rw [h1]
    exact registerUser_of_some _ u now2 _ hfind

/-- Witness for C4: registering "alice" twice on the empty store. -/
theorem registerUser_duplicate_username_witness :
    (∃ user, (registerUser emptyStore "alice" 0).1 = Except.ok user ∧ user.username = "alice" ∧
      user.isOnline = true ∧ user.lastSeen = 0 ∧ user.id = emptyStore.currentUserId) ∧
    registerUser ((registerUser emptyStore "alice" 0).2) "alice" 1 =
      (Except.error "Username already taken", (registerUser emptyStore "alice" 0).2) :=
  (registerUser_duplicate_username emptyStore "alice" 0 1).2 (by decide)

/-! ## C6: member resolution drops dangling user references, silently -/

/-- C6: `getChatMembers` returns exactly one `(member, user)` entry for
each membership row of the chat whose user id resolves, in row order, and
silently omits every row whose user id does not resolve.  (The embedding
is a total function: no error is ever raised for a dangling reference.) -/
theorem getChatMembers_resolved_per_row (s : StoreState) (chatId : Nat) :
    getChatMembers s chatId =
      ((s.chatMembers.filter (fun m => m.chatId == chatId)).filter
          (fun m => (getUser s m.userId).isSome)).map
        (fun m => (m, getUser s m.userId)) := by
  unfold getChatMembers
  rw [List.filter_map]
  rfl

/-! ## C8: online-status update is a no-op on unknown ids and frames known ones -/

/-- C8: when the user id is unknown, `updateUserOnlineStatus` succeeds and
leaves the whole store unchanged; when it is known, only that user's
`isOnline` and `lastSeen` fields change — every other collection, every
counter, and every other user are untouched. -/
theorem updateUserOnlineStatus_frame (s : StoreState) (uid : Nat) (b : Bool) (now : Nat) :
    (getUser s uid = none → updateUserOnlineStatus s uid b now = s) ∧
    (∀ w, getUser s uid = some w →
      (updateUserOnlineStatus s uid b now).users =
        s.users.map (fun u =>
          if u.id == uid then { u with isOnline := b, lastSeen := now } else u) ∧
      (updateUserOnlineStatus s uid b now).chats = s.chats ∧
      (updateUserOnlineStatus s uid b now).chatMembers = s.chatMembers ∧
      (updateUserOnlineStatus s uid b now).messages = s.messages ∧
      (updateUserOnlineStatus s uid b now).currentUserId = s.currentUserId ∧
      (updateUserOnlineStatus s uid b now).currentChatId = s.currentChatId ∧
      (updateUserOnlineStatus s uid b now).currentChatMemberId = s.currentChatMemberId ∧
      (updateUserOnlineStatus s uid b now).currentMessageId = s.currentMessageId ∧
      (∀ u ∈ s.users, u.id ≠ uid → u ∈ (updateUserOnlineStatus s uid b now).users)) := by
  constructor
  · intro hn
    unfold updateUserOnlineStatus
    rw [hn]
  · intro w hw
    have hupd : updateUserOnlineStatus s uid b now =
        { s with users := s.users.map (fun u =>
            if u.id == uid then { u with isOnline := b, lastSeen := now } else u) } := by
      unfold updateUserOnlineStatus
      rw [hw]
    refine ⟨by rw [hupd], by rw [hupd], by rw [hupd], by rw [hupd], by rw [hupd],
      by rw [hupd], by rw [hupd], by rw [hupd], ?_⟩
    intro u hu hne
    rw [hupd]
    have : (fun v => if v.id == uid then { v with isOnline := b, lastSeen := now } else v) u = u := by
      simp [hne]
    exact this ▸ List.mem_map_of_mem _ hu

/-- Witness for C8: unknown id 7 is a no-op on `storeAB`; updating user 2
rewrites only that user's flags. -/
theorem updateUserOnlineStatus_frame_witness :
    updateUserOnlineStatus storeAB 7 false 9 = storeAB ∧
    (updateUserOnlineStatus storeAB 2 false 9).users =
      storeAB.users.map (fun u =>
        if u.id == 2 then { u with isOnline := false, lastSeen := 9 } else u) ∧
    (updateUserOnlineStatus storeAB 2 false 9).chats = storeAB.chats :=
  ⟨(updateUserOnlineStatus_frame storeAB 7 false 9).1 (by decide),
   ((updateUserOnlineStatus_frame storeAB 2 false 9).2
      { id := 2, username := "bob", isOnline := true, lastSeen := 1 } (by decide)).1,
   ((updateUserOnlineStatus_frame storeAB 2 false 9).2
      { id := 2, username := "bob", isOnline := true, lastSeen := 1 } (by decide)).2.1⟩

/-! ## Congruence and counting helpers -/

/-- `getUser` only reads the `users` collection. -/
theorem getUser_congr {s1 s2 : StoreState} (h : s1.users = s2.users) (id : Nat) :
    getUser s1 id = getUser s2 id := by
  unfold getUser
  rw [h]

/-- `getChat` only reads the `chats` collection. -/
theorem getChat_congr {s1 s2 : StoreState} (h : s1.chats = s2.chats) (id : Nat) :
    getChat s1 id = getChat s2 id := by
  unfold getChat
  rw [h]

/-- `getChatMessages` only reads the `messages` and `users` collections. -/
theorem getChatMessages_congr {s1 s2 : StoreState} (hm : s1.messages = s2.messages)
    (hu : s1.users = s2.users) (chatId limit : Nat) :
    getChatMessages s1 chatId limit = getChatMessages s2 chatId limit := by
  unfold getChatMessages newestWindow sortDescBySentAt messagesOf getUser
  rw [hm, hu]

/-- `getChatMembers` only reads the `chatMembers` and `users` collections. -/
theorem getChatMembers_congr {s1 s2 : StoreState} (hc : s1.chatMembers = s2.chatMembers)
    (hu : s1.users = s2.users) (chatId : Nat) :
    getChatMembers s1 chatId = getChatMembers s2 chatId := by
  unfold getChatMembers getUser
  rw [hc, hu]

/-- The length of a `filterMap` counts the elements sent to `some`. -/
theorem length_filterMap_isSome {α β : Type} (f : α → Option β) (l : List α) :
    (l.filterMap f).length = l.countP (fun x => (f x).isSome) := by
  induction l with
  | nil => rfl
  | cons x xs ih =>
    cases hfx : f x <;>
      simp [List.filterMap_cons, hfx, List.countP_cons, ih]

/-- Assembly succeeds exactly when the chat id resolves. -/
theorem isSome_getChatWithMembers (s : StoreState) (id : Nat) :
    (getChatWithMembers s id).isSome = (getChat s id).isSome := by
  unfold getChatWithMembers
  cases h : getChat s id <;> simp

/-! ## C5: a freshly created chat's member list is exactly its creator -/

/-- C5: `createChat` atomically adds the creator as the sole member: on a
store whose stale rows do not mention the fresh chat id, assembling the
new chat returns exactly one member entry, the creator (resolved to their
user), and no last message. -/
theorem createChat_members_exactly_creator (s : StoreState) (type : String)
    (name : Option String) (createdBy now : Nat)
    (hcreator : (getUser s createdBy).isSome)
    (hrows : ∀ m ∈ s.chatMembers, m.chatId ≠ s.currentChatId)
    (hchats : ∀ c ∈ s.chats, c.id ≠ s.currentChatId)
    (hmsgs : ∀ m ∈ s.messages, m.chatId ≠ s.currentChatId) :
    (createChat s type name createdBy now).1.id = s.currentChatId ∧
    (createChat s type name createdBy now).2.chatMembers =
      s.chatMembers ++
        [{ id := s.currentChatMemberId, chatId := s.currentChatId, userId := createdBy,
           joinedAt := now }] ∧
    (∃ w, getUser s createdBy = some w ∧
      getChatWithMembers (createChat s type name createdBy now).2 s.currentChatId =
        some { chat := (createChat s type name createdBy now).1
               members := [({ id := s.currentChatMemberId, chatId := s.currentChatId,
                              userId := createdBy, joinedAt := now }, some w)]
               lastMessage := none
               unreadCount := 0 }) := by
  obtain ⟨w, hw⟩ := Option.isSome_iff_exists.mp hcreator
  have hs2 : (createChat s type name createdBy now).2 =
      { s with
          chats := s.chats ++
            [{ id := s.currentChatId, name := name, type := type, createdBy := createdBy,
               createdAt := now }]
          currentChatId := s.currentChatId + 1
          chatMembers := s.chatMembers ++
            [{ id := s.currentChatMemberId, chatId := s.currentChatId, userId := createdBy,
               joinedAt := now }]
          currentChatMemberId := s.currentChatMemberId + 1 } := rfl
  refine ⟨rfl, by rw [hs2], w, hw, ?_⟩
  have hgc : getChat (createChat s type name createdBy now).2 s.currentChatId =
      some { id := s.currentChatId, name := name, type := type, createdBy := createdBy,
             createdAt := now } := by
    rw [hs2]
    unfold getChat
    simp only [List.find?_append]
    have hnone : s.chats.find? (fun c => c.id == s.currentChatId) = none :=
      List.find?_eq_none.mpr (fun c hc => by simp [hchats c hc])
    simp [hnone]
  have hmem : getChatMembers (createChat s type name createdBy now).2 s.currentChatId =
      [({ id := s.currentChatMemberId, chatId := s.currentChatId, userId := createdBy,
          joinedAt := now }, some w)] := by
    rw [hs2]
    unfold getChatMembers
    simp only [List.filter_append]
    have hnone : s.chatMembers.filter (fun m => m.chatId == s.currentChatId) = [] :=
      List.filter_eq_nil_iff.mpr (fun m hm => by simp [hrows m hm])
    have hget : getUser { s with
        chats := s.chats ++
          [{ id := s.currentChatId, name := name, type := type, createdBy := createdBy,
             createdAt := now }]
        currentChatId := s.currentChatId + 1
        chatMembers := s.chatMembers ++
          [{ id := s.currentChatMemberId, chatId := s.currentChatId, userId := createdBy,
             joinedAt := now }]
        currentChatMemberId := s.currentChatMemberId + 1 } createdBy = some w := by
      rw [getUser_congr rfl createdBy]
      exact hw
    simp [hnone, hget]
  have hnomsg : getChatMessages (createChat s type name createdBy now).2 s.currentChatId 1 = [] := by
    have hmsgnone : messagesOf (createChat s type name createdBy now).2 s.currentChatId = [] := by
      rw [hs2]
      unfold messagesOf
      exact List.filter_eq_nil_iff.mpr (fun m hm => by simp [hmsgs m hm])
    unfold getChatMessages newestWindow sortDescBySentAt
    rw [hmsgnone]
    rfl
  unfold getChatWithMembers
  rw [hgc, hmem, hnomsg]
  rfl

/-- Witness for C5: creating the "Team" chat on `storeAB`. -/
theorem createChat_members_exactly_creator_witness :
    (createChat storeAB "group" (some "Team") 1 5).1.id = storeAB.currentChatId ∧
    (createChat storeAB "group" (some "Team") 1 5).2.chatMembers =
      storeAB.chatMembers ++
        [{ id := storeAB.currentChatMemberId, chatId := storeAB.currentChatId, userId := 1,
           joinedAt := 5 }] ∧
    (∃ w, getUser storeAB 1 = some w ∧
      getChatWithMembers (createChat storeAB "group" (some "Team") 1 5).2
          storeAB.currentChatId =
        some { chat := (createChat storeAB "group" (some "Team") 1 5).1
               members := [({ id := storeAB.currentChatMemberId,
                              chatId := storeAB.currentChatId, userId := 1, joinedAt := 5 },
                            some w)]
               lastMessage := none
               unreadCount := 0 }) :=
  createChat_members_exactly_creator storeAB "group" (some "Team") 1 5 (by decide)
    (by decide) (by decide) (by decide)

/-! ## C9: `getUserChats` is per membership row, and duplicate rows duplicate chats -/

/-- C9: `getUserChats` produces one entry per membership row of the user
whose chat resolves (not per distinct chat), so calling `addChatMember`
twice with the same `(chat, user)` pair creates two distinct rows and the
same chat then appears twice in `getUserChats`. -/
theorem getUserChats_per_membership_row (s : StoreState) (u c t1 t2 : Nat) :
    (getUserChats s u).length =
      (s.chatMembers.filter (fun m => m.userId == u)).countP
        (fun m => (getChat s m.chatId).isSome) ∧
    (∀ ch, getChat s c = some ch →
      (addChatMember (addChatMember s c u t1) c u t2).chatMembers =
        s.chatMembers ++
          [{ id := s.currentChatMemberId, chatId := c, userId := u, joinedAt := t1 },
           { id := s.currentChatMemberId + 1, chatId := c, userId := u, joinedAt := t2 }] ∧
      ∃ X cw1 cw2,
        getUserChats (addChatMember (addChatMember s c u t1) c u t2) u = X ++ [cw1, cw2] ∧
        cw1.chat.id = c ∧ cw2.chat.id = c ∧
        X.length = (getUserChats s u).length) := by
  have hlen : ∀ s' : StoreState, (getUserChats s' u).length =
      (s'.chatMembers.filter (fun m => m.userId == u)).countP
        (fun m => (getChat s' m.chatId).isSome) := by
    intro s'
    unfold getUserChats
    rw [length_filterMap_isSome]
    exact List.countP_congr (fun m _ => by rw [isSome_getChatWithMembers])
  refine ⟨hlen s, fun ch hch => ?_⟩
  have hs2 : (addChatMember (addChatMember s c u t1) c u t2) =
      { s with
          chatMembers := s.chatMembers ++
            [{ id := s.currentChatMemberId, chatId := c, userId := u, joinedAt := t1 },
             { id := s.currentChatMemberId + 1, chatId := c, userId := u, joinedAt := t2 }]
          currentChatMemberId := s.currentChatMemberId + 1 + 1 } := by
    unfold addChatMember
    simp
  have hchats2 : (addChatMember (addChatMember s c u t1) c u t2).chats = s.chats := by
    rw [hs2]
  have hch2 : getChat (addChatMember (addChatMember s c u t1) c u t2) c = some ch := by
    rw [getChat_congr hchats2 c]
    exact hch
  have hcw : ∃ cw, getChatWithMembers (addChatMember (addChatMember s c u t1) c u t2) c =
      some cw ∧ cw.chat = ch := by
    unfold getChatWithMembers
    rw [hch2]
    exact ⟨_, rfl, rfl⟩
  obtain ⟨cw, hcwEq, hcwChat⟩ := hcw
  have hchid : ch.id = c := by
    have := List.find?_some hch
    simpa using this
  refine ⟨by rw [hs2], ?_⟩
  refine ⟨(s.chatMembers.filter (fun m => m.userId == u)).filterMap
      (fun m => getChatWithMembers (addChatMember (addChatMember s c u t1) c u t2) m.chatId),
    cw, cw, ?_, by rw [hcwChat, hchid], by rw [hcwChat, hchid], ?_⟩
  · conv =>
      lhs
      unfold getUserChats
    rw [hs2]
    simp only [List.filter_append, List.filterMap_append]
    have hpass : (([{ id := s.currentChatMemberId, chatId := c, userId := u, joinedAt := t1 },
        { id := s.currentChatMemberId + 1, chatId := c, userId := u,
          joinedAt := t2 }] : List ChatMember).filter (fun m => m.userId == u)) =
        ([{ id := s.currentChatMemberId, chatId := c, userId := u, joinedAt := t1 },
          { id := s.currentChatMemberId + 1, chatId := c, userId := u,
            joinedAt := t2 }] : List ChatMember) := by
      simp
    rw [hpass]
    have : (([{ id := s.currentChatMemberId, chatId := c, userId := u, joinedAt := t1 },
        { id := s.currentChatMemberId + 1, chatId := c, userId := u,
          joinedAt := t2 }] : List ChatMember).filterMap
          (fun m => getChatWithMembers (addChatMember (addChatMember s c u t1) c u t2)
            m.chatId)) = [cw, cw] := by
      simp only [List.filterMap_cons]
      rw [show getChatWithMembers (addChatMember (addChatMember s c u t1) c u t2) c =
        some cw from hcwEq]
      rfl
    rw [← hs2]
    rw [this]
  · rw [length_filterMap_isSome, hlen s]
    exact List.countP_congr (fun m _ => by
      rw [isSome_getChatWithMembers, getChat_congr hchats2 m.chatId])

/-- Witness for C9: adding user 2 twice to chat 1 of `storeABChat` makes
chat 1 appear twice in user 2's chat list. -/
theorem getUserChats_per_membership_row_witness :
    (getUserChats storeABChat 2).length =
      (storeABChat.chatMembers.filter (fun m => m.userId == 2)).countP
        (fun m => (getChat storeABChat m.chatId).isSome) ∧
    (addChatMember (addChatMember storeABChat 1 2 6) 1 2 7).chatMembers =
      storeABChat.chatMembers ++
        [{ id := storeABChat.currentChatMemberId, chatId := 1, userId := 2, joinedAt := 6 },
         { id := storeABChat.currentChatMemberId + 1, chatId := 1, userId := 2,
           joinedAt := 7 }] ∧
    ∃ X cw1 cw2,
      getUserChats (addChatMember (addChatMember storeABChat 1 2 6) 1 2 7) 2 =
        X ++ [cw1, cw2] ∧
      cw1.chat.id = 1 ∧ cw2.chat.id = 1 ∧
      X.length = (getUserChats storeABChat 2).length :=
  ⟨(getUserChats_per_membership_row storeABChat 2 1 6 7).1,
   (getUserChats_per_membership_row storeABChat 2 1 6 7).2
     { id := 1, name := some "Team", type := "group", createdBy := 1, createdAt := 5 }
     (by decide)⟩

/-! ## C2: ordering of `getChatMessages` -/

open List

instance : IsTotal Message (fun a b => b.sentAt ≤ a.sentAt) :=
  ⟨fun a b => Nat.le_total b.sentAt a.sentAt⟩

instance : IsTrans Message (fun a b => b.sentAt ≤ a.sentAt) :=
  ⟨fun _ _ _ hab hbc => Nat.le_trans hbc hab⟩

/-- In a duplicate-free list, a pair cannot occur as a sublist in both
orders unless its ends coincide. -/
theorem pair_sublist_antisymm {α : Type} {l : List α} (hl : l.Nodup) :
    ∀ {a b : α}, [a, b] <+ l → [b, a] <+ l → a = b := by
  induction l with
  | nil => intro a b hab _; cases hab
  | cons x t ih =>
    intro a b hab hba
    rw [List.nodup_cons] at hl
    cases hab with
    | cons _ hab' =>
      cases hba with
      | cons _ hba' => exact ih hl.2 hab' hba'
      | cons₂ hba' => exact absurd (hab'.subset (by simp)) hl.1
    | cons₂ hab' =>
      cases hba with
      | cons _ hba' => exact absurd (hba'.subset (by simp)) hl.1
      | cons₂ hba' => rfl

/-- Two distinct members of a list occur as a two-element sublist in one of
the two orders. -/
theorem pair_sublist_of_mem {α : Type} {l : List α} {a b : α} (ha : a ∈ l) (hb : b ∈ l)
    (hne : a ≠ b) : [a, b] <+ l ∨ [b, a] <+ l := by
  induction l with
  | nil => cases ha
  | cons x t ih =>
    rcases List.mem_cons.mp ha with hax | hat
    · subst hax
      have hbt : b ∈ t := by
        rcases List.mem_cons.mp hb with hbx | hbt
        · exact absurd hbx.symm hne
        · exact hbt
      exact Or.inl (List.cons_sublist_cons.mpr (List.singleton_sublist.mpr hbt))
    · rcases List.mem_cons.mp hb with hbx | hbt
      · subst hbx
        exact Or.inr (List.cons_sublist_cons.mpr (List.singleton_sublist.mpr hat))
      · exact (ih hat hbt).imp (List.Sublist.cons x) (List.Sublist.cons x)

/-- C2 amended: `getChatMessages s c k` is ascending in sent time; every
returned message lies in the newest-`k` window; the window has exactly
`min k` (number of chat messages) elements, and every chat message outside
the window is no newer than any returned message.  Ties, however, come out
in *reverse* insertion order: under unique message ids, whenever `p`
appears before `q` in the output with equal timestamps, `q` preceded `p`
in the message log. -/
theorem getChatMessages_newest_ascending (s : StoreState) (c k : Nat) :
    (getChatMessages s c k).Pairwise (fun p q => p.1.sentAt ≤ q.1.sentAt) ∧
    (∀ p ∈ getChatMessages s c k, p.1 ∈ newestWindow s c k) ∧
    (newestWindow s c k).length = min k (messagesOf s c).length ∧
    (∀ p ∈ getChatMessages s c k, ∀ m ∈ messagesOf s c, m ∉ newestWindow s c k →
      m.sentAt ≤ p.1.sentAt) ∧
    ((s.messages.map Message.id).Nodup →
      ∀ p q : Message, [p, q] <+ (getChatMessages s c k).map Prod.fst →
        p.sentAt = q.sentAt → [q, p] <+ messagesOf s c) := by
  have hsorted : (sortDescBySentAt (messagesOf s c)).Pairwise
      (fun a b : Message => b.sentAt ≤ a.sentAt) := by
    unfold sortDescBySentAt
    exact List.sorted_insertionSort _ _
  have hwindow_sub : newestWindow s c k <+ sortDescBySentAt (messagesOf s c) :=
    List.take_sublist _ _
  have hwindow_pw : (newestWindow s c k).Pairwise (fun a b => b.sentAt ≤ a.sentAt) :=
    List.Pairwise.sublist hwindow_sub hsorted
  have hout_def : getChatMessages s c k =
      (((newestWindow s c k).reverse).map (fun m => (m, getUser s m.senderId))).filter
        (fun p => p.2.isSome) := rfl
  have hmem_out : ∀ p ∈ getChatMessages s c k, p.1 ∈ newestWindow s c k := by
    intro p hp
    rw [hout_def] at hp
    obtain ⟨m, hm, hfm⟩ := List.mem_map.mp (List.mem_of_mem_filter hp)
    rw [← hfm]
    exact List.mem_reverse.mp hm
  refine ⟨?_, hmem_out, ?_, ?_, ?_⟩
  · rw [hout_def]
    apply List.Pairwise.sublist (List.filter_sublist _)
    rw [List.pairwise_map]
    exact List.pairwise_reverse.mpr hwindow_pw
  · unfold newestWindow
    rw [List.length_take]
    unfold sortDescBySentAt
    rw [List.length_insertionSort]
  · intro p hp m hm hnotwin
    have hm_sorted : m ∈ sortDescBySentAt (messagesOf s c) := by
      unfold sortDescBySentAt
      exact (List.mem_insertionSort _).mpr hm
    have hsplit := List.take_append_drop k (sortDescBySentAt (messagesOf s c))
    have hdrop : m ∈ (sortDescBySentAt (messagesOf s c)).drop k := by
      rcases List.mem_append.mp (by rw [hsplit]; exact hm_sorted) with h | h
      · exact absurd h hnotwin
      · exact h
    have hpw := hsorted
    rw [← hsplit] at hpw
    exact (List.pairwise_append.mp hpw).2.2 p.1 (hmem_out p hp) m hdrop
  · intro hnd p q hpq heq
    have hnd_msgs : (messagesOf s c).Nodup := by
      have hsubmap : (messagesOf s c).map Message.id <+ s.messages.map Message.id :=
        (List.filter_sublist _).map _
      exact (hnd.sublist hsubmap).of_map
    have hnd_sorted : (sortDescBySentAt (messagesOf s c)).Nodup := by
      unfold sortDescBySentAt
      exact ((List.perm_insertionSort _ _).nodup_iff).mpr hnd_msgs
    have houtfst : (getChatMessages s c k).map Prod.fst <+ (newestWindow s c k).reverse := by
      rw [hout_def]
      have h1 : ((((newestWindow s c k).reverse).map (fun m => (m, getUser s m.senderId))).filter
          (fun p => p.2.isSome)) <+
          (((newestWindow s c k).reverse).map (fun m => (m, getUser s m.senderId))) :=
        List.filter_sublist _
      have h2 := h1.map Prod.fst
      have h3 : (((newestWindow s c k).reverse).map
            (fun m => (m, getUser s m.senderId))).map Prod.fst =
          (newestWindow s c k).reverse := by
        rw [List.map_map]
        exact List.map_id _
      rw [h3] at h2
      exact h2
    have hpq_rev : [p, q] <+ (newestWindow s c k).reverse := hpq.trans houtfst
    have hqp_win : [q, p] <+ newestWindow s c k := by
      have h2 := hpq_rev.reverse
      simpa using h2
    have hqp_sorted : [q, p] <+ sortDescBySentAt (messagesOf s c) :=
      hqp_win.trans hwindow_sub
    have hq_mem : q ∈ messagesOf s c := by
      have h3 : q ∈ sortDescBySentAt (messagesOf s c) := hqp_sorted.subset (by simp)
      unfold sortDescBySentAt at h3
      exact (List.mem_insertionSort _).mp h3
    have hp_mem : p ∈ messagesOf s c := by
      have h3 : p ∈ sortDescBySentAt (messagesOf s c) := hqp_sorted.subset (by simp)
      unfold sortDescBySentAt at h3
      exact (List.mem_insertionSort _).mp h3
    by_cases hpq_eq : p = q
    · subst hpq_eq
      have h4 := List.Pairwise.sublist hqp_sorted hnd_sorted
      simp at h4
    · rcases pair_sublist_of_mem hq_mem hp_mem (fun h => hpq_eq h.symm) with h | h
      · exact h
      · have hr : q.sentAt ≤ p.sentAt := le_of_eq heq.symm
        have hsort2 : [p, q] <+ sortDescBySentAt (messagesOf s c) := by
          unfold sortDescBySentAt
          exact List.pair_sublist_insertionSort hr h
        exact absurd (pair_sublist_antisymm hnd_sorted hsort2 hqp_sorted) hpq_eq

/-- Messages "hi" (id 1, from user 1) and "hey" (id 2, from user 2) sent to
chat 1 at the same timestamp 30, on top of `storeAB`. -/
def storeTie : StoreState :=
  (createMessage ((createMessage storeAB 1 1 "hi" 30).2) 1 2 "hey" 30).2

/-- The first message of `storeTie`. -/
def msgHi : Message := { id := 1, chatId := 1, senderId := 1, content := "hi", sentAt := 30 }

/-- The second message of `storeTie`. -/
def msgHey : Message := { id := 2, chatId := 1, senderId := 2, content := "hey", sentAt := 30 }

/-- C2 counterexample: two messages of the same chat with equal `sentAt`
are returned in *reverse* insertion order — the message log holds ids
`[1, 2]` but `getChatMessages` returns ids `[2, 1]`, not the insertion
order `[1, 2]` the claim requires. -/
theorem getChatMessages_tie_not_insertion_order :
    storeTie.messages = [msgHi, msgHey] ∧
    msgHi.sentAt = msgHey.sentAt ∧
    (getChatMessages storeTie 1 50).map (fun p => p.1.id) = [2, 1] ∧
    (getChatMessages storeTie 1 50).map (fun p => p.1.id) ≠ [1, 2] := by
  refine ⟨by decide, by decide, by decide, by decide⟩

/-- Witness for the amended C2 at `storeTie`: the output is ascending, and
the tie pair `(msgHey, msgHi)` of the output occurred as `(msgHi, msgHey)`
in the message log. -/
theorem getChatMessages_newest_ascending_witness :
    (getChatMessages storeTie 1 50).Pairwise (fun p q => p.1.sentAt ≤ q.1.sentAt) ∧
    [msgHi, msgHey] <+ messagesOf storeTie 1 :=
  ⟨(getChatMessages_newest_ascending storeTie 1 50).1,
   (getChatMessages_newest_ascending storeTie 1 50).2.2.2.2 (by decide) msgHey msgHi
     (by
       have h : (getChatMessages storeTie 1 50).map Prod.fst = [msgHey, msgHi] := by decide
       rw [h])
     (by decide)⟩

/-! ## C1: idempotence and uniqueness of `findOrCreateDirect` -/

/-- `filterMap` only depends on the function's values on the list. -/
theorem filterMap_congr_mem {α β : Type} {f g : α → Option β} {l : List α}
    (h : ∀ x ∈ l, f x = g x) : l.filterMap f = l.filterMap g := by
  induction l with
  | nil => rfl
  | cons x t ih =>
    rw [List.filterMap_cons, List.filterMap_cons, h x (by simp),
      ih (fun z hz => h z (by simp [hz]))]

/-- The store after the creation path of `findOrCreateDirect s x y now`:
the new direct chat (creator `x`) plus its two membership rows, as proved
by `findOrCreateDirect_eq_of_none`. -/
def sCreated (s : StoreState) (x y : Nat) (now : Nat) : StoreState :=
  { s with
      chats := s.chats ++
        [{ id := s.currentChatId, name := none, type := "direct", createdBy := x,
           createdAt := now }]
      currentChatId := s.currentChatId + 1
      chatMembers := s.chatMembers ++
        [{ id := s.currentChatMemberId, chatId := s.currentChatId, userId := x, joinedAt := now },
         { id := s.currentChatMemberId + 1, chatId := s.currentChatId, userId := y,
           joinedAt := now }]
      currentChatMemberId := s.currentChatMemberId + 2 }

/-- When no existing direct chat matches, `findOrCreateDirect` creates the
chat and both memberships, returning the assembled new chat. -/
theorem findOrCreateDirect_eq_of_none (s : StoreState) (x y : Nat) (now : Nat)
    (hnone : (getUserChats s x).find? (isDirectMatch y) = none) :
    findOrCreateDirect s x y now =
      (getChatWithMembers (sCreated s x y now) s.currentChatId, sCreated s x y now) := by
  unfold findOrCreateDirect
  rw [hnone]
  unfold createChat addChatMember sCreated
  simp [List.append_assoc]

/-- If no direct chat of the store has both `x` and `y` among its member
rows, the scan of `findOrCreateDirect` finds no match. -/
theorem find_direct_none (s : StoreState) (x y : Nat)
    (hclean : ∀ c ∈ s.chats, c.type = "direct" →
      ¬(((memberRows s c.id).any (fun m => m.userId == x)) = true ∧
        ((memberRows s c.id).any (fun m => m.userId == y)) = true)) :
    (getUserChats s x).find? (isDirectMatch y) = none := by
  rw [List.find?_eq_none]
  intro cw hcw hmatch
  unfold getUserChats at hcw
  obtain ⟨m, hmf, hasm⟩ := List.mem_filterMap.mp hcw
  obtain ⟨hm_mem, hm_uid⟩ := List.mem_filter.mp hmf
  unfold getChatWithMembers at hasm
  cases hch : getChat s m.chatId with
  | none => rw [hch] at hasm; exact absurd hasm (by simp)
  | some ch =>
    rw [hch] at hasm
    simp only [Option.some.injEq] at hasm
    have hchat : cw.chat = ch := by rw [← hasm]
    have hmembers : cw.members = getChatMembers s m.chatId := by rw [← hasm]
    unfold isDirectMatch at hmatch
    simp only [Bool.and_eq_true] at hmatch
    obtain ⟨⟨htype, _hlen⟩, hany⟩ := hmatch
    obtain ⟨p, hp_mem, hp_y⟩ := List.any_eq_true.mp hany
    rw [hmembers] at hp_mem
    have hp_row : p.1 ∈ s.chatMembers ∧ (p.1.chatId == m.chatId) = true := by
      unfold getChatMembers at hp_mem
      obtain ⟨q, hq, hqeq⟩ := List.mem_map.mp (List.mem_of_mem_filter hp_mem)
      have hqp : q = p.1 := by rw [← hqeq]
      rw [← hqp]
      exact ⟨(List.mem_filter.mp hq).1, (List.mem_filter.mp hq).2⟩
    have hch_mem : ch ∈ s.chats := List.mem_of_find?_eq_some hch
    have hch_id : ch.id = m.chatId := by
      have h5 := List.find?_some hch
      simpa using h5
    have htype' : ch.type = "direct" := by
      rw [hchat] at htype
      simpa using htype
    apply hclean ch hch_mem htype'
    constructor
    · exact List.any_eq_true.mpr ⟨m, List.mem_filter.mpr ⟨hm_mem, by simp [hch_id]⟩, hm_uid⟩
    · refine List.any_eq_true.mpr ⟨p.1, List.mem_filter.mpr ⟨hp_row.1, ?_⟩, hp_y⟩
      rw [hch_id]
      exact hp_row.2

/-- `getChat` on the creation-path store is unchanged for old chat ids. -/
theorem getChat_sCreated_of_ne (s : StoreState) (x y now cid : Nat)
    (hcid : cid ≠ s.currentChatId) :
    getChat (sCreated s x y now) cid = getChat s cid := by
  unfold getChat sCreated
  simp only [List.find?_append]
  have hnone : List.find? (fun c => c.id == cid)
      [{ id := s.currentChatId, name := none, type := "direct", createdBy := x,
         createdAt := now : Chat }] = none := by
    simp [Ne.symm hcid]
  rw [hnone, Option.or_none]

/-- `getChatMembers` on the creation-path store is unchanged for old chat
ids. -/
theorem getChatMembers_sCreated_of_ne (s : StoreState) (x y now cid : Nat)
    (hcid : cid ≠ s.currentChatId) :
    getChatMembers (sCreated s x y now) cid = getChatMembers s cid := by
  unfold getChatMembers
  have hrows : (sCreated s x y now).chatMembers.filter (fun m => m.chatId == cid) =
      s.chatMembers.filter (fun m => m.chatId == cid) := by
    unfold sCreated
    simp only [List.filter_append]
    have h0 : List.filter (fun m => m.chatId == cid)
        [{ id := s.currentChatMemberId, chatId := s.currentChatId, userId := x,
           joinedAt := now : ChatMember },
         { id := s.currentChatMemberId + 1, chatId := s.currentChatId, userId := y,
           joinedAt := now : ChatMember }] = [] := by
      simp [Ne.symm hcid]
    rw [h0, List.append_nil]
  have hfun : (fun m : ChatMember => (m, getUser (sCreated s x y now) m.userId)) =
      (fun m => (m, getUser s m.userId)) :=
    funext (fun m => by
      rw [getUser_congr (show (sCreated s x y now).users = s.users from rfl) m.userId])
  rw [hrows, hfun]

/-- Assembly on the creation-path store is unchanged for old chat ids. -/
theorem getChatWithMembers_sCreated_of_ne (s : StoreState) (x y now cid : Nat)
    (hcid : cid ≠ s.currentChatId) :
    getChatWithMembers (sCreated s x y now) cid = getChatWithMembers s cid := by
  unfold getChatWithMembers
  rw [getChat_sCreated_of_ne s x y now cid hcid]
  cases hch : getChat s cid with
  | none => rfl
  | some ch =>
    rw [getChatMembers_sCreated_of_ne s x y now cid hcid,
      getChatMessages_congr (show (sCreated s x y now).messages = s.messages from rfl)
        (show (sCreated s x y now).users = s.users from rfl) cid 1]

/-- The assembled view of the chat created by the creation path: a direct
chat whose resolved member list is exactly the two rows for `x` and `y`. -/
theorem getChatWithMembers_sCreated_new (s : StoreState) (x y now : Nat)
    (hux : (getUser s x).isSome) (huy : (getUser s y).isSome)
    (hrows : ∀ m ∈ s.chatMembers, m.chatId ≠ s.currentChatId)
    (hchats : ∀ c ∈ s.chats, c.id ≠ s.currentChatId) :
    ∃ wx wy, getUser s x = some wx ∧ getUser s y = some wy ∧
      getChatWithMembers (sCreated s x y now) s.currentChatId =
        some { chat := { id := s.currentChatId, name := none, type := "direct",
                         createdBy := x, createdAt := now }
               members := [({ id := s.currentChatMemberId, chatId := s.currentChatId,
                              userId := x, joinedAt := now }, some wx),
                           ({ id := s.currentChatMemberId + 1, chatId := s.currentChatId,
                              userId := y, joinedAt := now }, some wy)]
               lastMessage :=
                 (getChatMessages (sCreated s x y now) s.currentChatId 1).head?
               unreadCount := 0 } := by
  obtain ⟨wx, hwx⟩ := Option.isSome_iff_exists.mp hux
  obtain ⟨wy, hwy⟩ := Option.isSome_iff_exists.mp huy
  refine ⟨wx, wy, hwx, hwy, ?_⟩
  have hgc : getChat (sCreated s x y now) s.currentChatId =
      some { id := s.currentChatId, name := none, type := "direct", createdBy := x,
             createdAt := now } := by
    unfold getChat sCreated
    simp only [List.find?_append]
    have hnone : s.chats.find? (fun c => c.id == s.currentChatId) = none :=
      List.find?_eq_none.mpr (fun c hc => by simp [hchats c hc])
    simp [hnone]
  have hwx2 : getUser (sCreated s x y now) x = some wx := by
    rw [getUser_congr (show (sCreated s x y now).users = s.users from rfl)]
    exact hwx
  have hwy2 : getUser (sCreated s x y now) y = some wy := by
    rw [getUser_congr (show (sCreated s x y now).users = s.users from rfl)]
    exact hwy
  have hmem : getChatMembers (sCreated s x y now) s.currentChatId =
      [({ id := s.currentChatMemberId, chatId := s.currentChatId, userId := x,
          joinedAt := now }, some wx),
       ({ id := s.currentChatMemberId + 1, chatId := s.currentChatId, userId := y,
          joinedAt := now }, some wy)] := by
    unfold getChatMembers
    have hsplit : (sCreated s x y now).chatMembers.filter
        (fun m => m.chatId == s.currentChatId) =
        [{ id := s.currentChatMemberId, chatId := s.currentChatId, userId := x,
           joinedAt := now },
         { id := s.currentChatMemberId + 1, chatId := s.currentChatId, userId := y,
           joinedAt := now }] := by
      unfold sCreated
      simp only [List.filter_append]
      have h0 : s.chatMembers.filter (fun m => m.chatId == s.currentChatId) = [] :=
        List.filter_eq_nil_iff.mpr (fun m hm => by simp [hrows m hm])
      rw [h0]
      simp
    rw [hsplit]
    simp [hwx2, hwy2]
  unfold getChatWithMembers
  rw [hgc, hmem]

/-- After the creation path for `(a, b)`, a second scan — from either end
of the pair — finds exactly the newly created chat. -/
theorem second_scan_finds (s : StoreState) (a b now : Nat) (x y : Nat)
    (hab : a ≠ b)
    (hua : (getUser s a).isSome) (hub : (getUser s b).isSome)
    (hrows : ∀ m ∈ s.chatMembers, m.chatId ≠ s.currentChatId)
    (hchats : ∀ c ∈ s.chats, c.id ≠ s.currentChatId)
    (hcleanxy : ∀ c ∈ s.chats, c.type = "direct" →
      ¬(((memberRows s c.id).any (fun m => m.userId == x)) = true ∧
        ((memberRows s c.id).any (fun m => m.userId == y)) = true)) 
    (hxy : (x, y) = (a, b) ∨ (x, y) = (b, a)) :
    (getUserChats (sCreated s a b now) x).find? (isDirectMatch y) =
      getChatWithMembers (sCreated s a b now) s.currentChatId := by
  rcases hxy with h | h
  · injection h with h1 h2
    subst h1
    subst h2
    obtain ⟨wa, wb, hwa, hwb, hasm⟩ :=
      getChatWithMembers_sCreated_new s x y now hua hub hrows hchats
    rw [hasm]
    unfold getUserChats
    have hfilter : (sCreated s x y now).chatMembers.filter (fun m => m.userId == x) =
        s.chatMembers.filter (fun m => m.userId == x) ++
          [{ id := s.currentChatMemberId, chatId := s.currentChatId, userId := x,
             joinedAt := now }] := by
      unfold sCreated
      simp only [List.filter_append]
      have h2 : List.filter (fun m => m.userId == x)
          [{ id := s.currentChatMemberId, chatId := s.currentChatId, userId := x,
             joinedAt := now : ChatMember },
           { id := s.currentChatMemberId + 1, chatId := s.currentChatId, userId := y,
             joinedAt := now : ChatMember }] =
          [{ id := s.currentChatMemberId, chatId := s.currentChatId, userId := x,
             joinedAt := now }] := by
        simp [Ne.symm hab]
      rw [h2]
    rw [hfilter, List.filterMap_append]
    have hold : (s.chatMembers.filter (fun m => m.userId == x)).filterMap
        (fun m => getChatWithMembers (sCreated s x y now) m.chatId) =
        getUserChats s x := by
      unfold getUserChats
      exact filterMap_congr_mem (fun m hm =>
        getChatWithMembers_sCreated_of_ne s x y now m.chatId
          (hrows m (List.mem_of_mem_filter hm)))
    rw [hold, List.find?_append, find_direct_none s x y hcleanxy]
    have hsingle : List.filterMap
        (fun m : ChatMember => getChatWithMembers (sCreated s x y now) m.chatId)
        [{ id := s.currentChatMemberId, chatId := s.currentChatId, userId := x,
           joinedAt := now }] =
        [{ chat := { id := s.currentChatId, name := none, type := "direct",
                     createdBy := x, createdAt := now }
           members := [({ id := s.currentChatMemberId, chatId := s.currentChatId,
                          userId := x, joinedAt := now }, some wa),
                       ({ id := s.currentChatMemberId + 1, chatId := s.currentChatId,
                          userId := y, joinedAt := now }, some wb)]
           lastMessage :=
             (getChatMessages (sCreated s x y now) s.currentChatId 1).head?
           unreadCount := 0 }] := by
      simp [hasm]
    rw [hsingle]
    simp [isDirectMatch]
  · injection h with h1 h2
    subst h1
    subst h2
    obtain ⟨wa, wb, hwa, hwb, hasm⟩ :=
      getChatWithMembers_sCreated_new s y x now hua hub hrows hchats
    rw [hasm]
    unfold getUserChats
    have hfilter : (sCreated s y x now).chatMembers.filter (fun m => m.userId == x) =
        s.chatMembers.filter (fun m => m.userId == x) ++
          [{ id := s.currentChatMemberId + 1, chatId := s.currentChatId, userId := x,
             joinedAt := now }] := by
      unfold sCreated
      simp only [List.filter_append]
      have h2 : List.filter (fun m => m.userId == x)
          [{ id := s.currentChatMemberId, chatId := s.currentChatId, userId := y,
             joinedAt := now : ChatMember },
           { id := s.currentChatMemberId + 1, chatId := s.currentChatId, userId := x,
             joinedAt := now : ChatMember }] =
          [{ id := s.currentChatMemberId + 1, chatId := s.currentChatId, userId := x,
             joinedAt := now }] := by
        simp [hab]
      rw [h2]
    rw [hfilter, List.filterMap_append]
    have hold : (s.chatMembers.filter (fun m => m.userId == x)).filterMap
        (fun m => getChatWithMembers (sCreated s y x now) m.chatId) =
        getUserChats s x := by
      unfold getUserChats
      exact filterMap_congr_mem (fun m hm =>
        getChatWithMembers_sCreated_of_ne s y x now m.chatId
          (hrows m (List.mem_of_mem_filter hm)))
    rw [hold, List.find?_append, find_direct_none s x y hcleanxy]
    have hsingle : List.filterMap
        (fun m : ChatMember => getChatWithMembers (sCreated s y x now) m.chatId)
        [{ id := s.currentChatMemberId + 1, chatId := s.currentChatId, userId := x,
           joinedAt := now }] =
        [{ chat := { id := s.currentChatId, name := none, type := "direct",
                     createdBy := y, createdAt := now }
           members := [({ id := s.currentChatMemberId, chatId := s.currentChatId,
                          userId := y, joinedAt := now }, some wa),
                       ({ id := s.currentChatMemberId + 1, chatId := s.currentChatId,
                          userId := x, joinedAt := now }, some wb)]
           lastMessage :=
             (getChatMessages (sCreated s y x now) s.currentChatId 1).head?
           unreadCount := 0 }] := by
      simp [hasm]
    rw [hsingle]
    simp [isDirectMatch]

/-- Membership rows on the creation-path store are unchanged for old chat
ids. -/
theorem memberRows_sCreated_of_ne (s : StoreState) (x y now cid : Nat)
    (hcid : cid ≠ s.currentChatId) :
    memberRows (sCreated s x y now) cid = memberRows s cid := by
  unfold memberRows sCreated
  simp only [List.filter_append]
  have h0 : List.filter (fun m => m.chatId == cid)
      [{ id := s.currentChatMemberId, chatId := s.currentChatId, userId := x,
         joinedAt := now : ChatMember },
       { id := s.currentChatMemberId + 1, chatId := s.currentChatId, userId := y,
         joinedAt := now : ChatMember }] = [] := by
    simp [Ne.symm hcid]
  rw [h0, List.append_nil]

/-- A member-id list containing `v` comes from a row list containing a row
with user id `v`. -/
theorem any_userId_of_map {l : List ChatMember} {v : Nat}
    (h : ((l.map (fun m => m.userId)).any (fun x => x == v)) = true) :
    (l.any (fun m => m.userId == v)) = true := by
  rw [List.any_eq_true] at h ⊢
  obtain ⟨u, hu, huv⟩ := h
  obtain ⟨m, hm, hmu⟩ := List.mem_map.mp hu
  exact ⟨m, hm, by rw [hmu]; exact huv⟩

/-- C1: `findOrCreateDirect` is idempotent for a distinct pair of existing
users.  Starting from a store with no direct chat mentioning both users,
whose stale rows and chats do not mention the fresh chat id (always true
in reachable states), the first call creates one direct chat and the
second call — with the arguments in either order — returns the very same
assembled chat, changes nothing, and afterwards exactly one direct chat
whose member set is `{a, b}` exists.  (Instantiating `a`, `b` with `b`,
`a` covers the first call's other argument order, as the hypotheses are
symmetric.) -/
theorem findOrCreateDirect_idempotent (s : StoreState) (a b x y now1 now2 : Nat)
    (hab : a ≠ b)
    (hua : (getUser s a).isSome) (hub : (getUser s b).isSome)
    (hrows : ∀ m ∈ s.chatMembers, m.chatId ≠ s.currentChatId)
    (hchats : ∀ c ∈ s.chats, c.id ≠ s.currentChatId)
    (hclean : ∀ c ∈ s.chats, c.type = "direct" →
      ¬(((memberRows s c.id).any (fun m => m.userId == a)) = true ∧
        ((memberRows s c.id).any (fun m => m.userId == b)) = true))
    (hxy : (x, y) = (a, b) ∨ (x, y) = (b, a)) :
    (findOrCreateDirect (findOrCreateDirect s a b now1).2 x y now2).2 =
      (findOrCreateDirect s a b now1).2 ∧
    (findOrCreateDirect (findOrCreateDirect s a b now1).2 x y now2).1 =
      (findOrCreateDirect s a b now1).1 ∧
    (∃ cw, (findOrCreateDirect s a b now1).1 = some cw ∧
      cw.chat.id = s.currentChatId ∧ cw.chat.type = "direct") ∧
    ((findOrCreateDirect (findOrCreateDirect s a b now1).2 x y now2).2.chats.countP
      (fun c => c.type == "direct" &&
        idSetIsPair (memberIds
          (findOrCreateDirect (findOrCreateDirect s a b now1).2 x y now2).2 c.id) a b)) =
      1 := by
  have hnone : (getUserChats s a).find? (isDirectMatch b) = none :=
    find_direct_none s a b hclean
  have hfirst := findOrCreateDirect_eq_of_none s a b now1 hnone
  have hfirst2 : (findOrCreateDirect s a b now1).2 = sCreated s a b now1 := by rw [hfirst]
  have hfirst1 : (findOrCreateDirect s a b now1).1 =
      getChatWithMembers (sCreated s a b now1) s.currentChatId := by rw [hfirst]
  have hcleanxy : ∀ c ∈ s.chats, c.type = "direct" →
      ¬(((memberRows s c.id).any (fun m => m.userId == x)) = true ∧
        ((memberRows s c.id).any (fun m => m.userId == y)) = true) := by
    rcases hxy with h | h
    · injection h with h1 h2
      subst h1
      subst h2
      exact hclean
    · injection h with h1 h2
      subst h1
      subst h2
      intro c hc ht hcontra
      exact hclean c hc ht ⟨hcontra.2, hcontra.1⟩
  have hscan := second_scan_finds s a b now1 x y hab hua hub hrows hchats hcleanxy hxy
  obtain ⟨wa, wb, hwa, hwb, hasm⟩ :=
    getChatWithMembers_sCreated_new s a b now1 hua hub hrows hchats
  have hscan2 : (getUserChats (sCreated s a b now1) x).find? (isDirectMatch y) =
      some { chat := { id := s.currentChatId, name := none, type := "direct",
                       createdBy := a, createdAt := now1 }
             members := [({ id := s.currentChatMemberId, chatId := s.currentChatId,
                            userId := a, joinedAt := now1 }, some wa),
                         ({ id := s.currentChatMemberId + 1, chatId := s.currentChatId,
                            userId := b, joinedAt := now1 }, some wb)]
             lastMessage :=
               (getChatMessages (sCreated s a b now1) s.currentChatId 1).head?
             unreadCount := 0 } := by
    rw [hscan, hasm]
  have hsecond : findOrCreateDirect (sCreated s a b now1) x y now2 =
      (some { chat := { id := s.currentChatId, name := none, type := "direct",
                        createdBy := a, createdAt := now1 }
              members := [({ id := s.currentChatMemberId, chatId := s.currentChatId,
                             userId := a, joinedAt := now1 }, some wa),
                          ({ id := s.currentChatMemberId + 1, chatId := s.currentChatId,
                             userId := b, joinedAt := now1 }, some wb)]
              lastMessage :=
                (getChatMessages (sCreated s a b now1) s.currentChatId 1).head?
              unreadCount := 0 }, sCreated s a b now1) := by
    unfold findOrCreateDirect
    rw [hscan2]
  refine ⟨?_, ?_, ?_, ?_⟩
  · rw [hfirst2, hsecond]
  · rw [hfirst2, hfirst1, hsecond, hasm]
  · refine ⟨_, by rw [hfirst1, hasm], rfl, rfl⟩
  · have hstate : (findOrCreateDirect (findOrCreateDirect s a b now1).2 x y now2).2 =
        sCreated s a b now1 := by
      rw [hfirst2, hsecond]
    rw [hstate]
    have hX : (sCreated s a b now1).chats = s.chats ++
        [{ id := s.currentChatId, name := none, type := "direct", createdBy := a,
           createdAt := now1 }] := rfl
    rw [hX, List.countP_append]
    have hold : s.chats.countP (fun c => c.type == "direct" &&
        idSetIsPair (memberIds (sCreated s a b now1) c.id) a b) = 0 := by
      rw [List.countP_eq_zero]
      intro c hc hpred
      simp only [Bool.and_eq_true] at hpred
      obtain ⟨htype, hpair⟩ := hpred
      have htype' : c.type = "direct" := by simpa using htype
      have hmr : memberIds (sCreated s a b now1) c.id = memberIds s c.id := by
        unfold memberIds
        rw [memberRows_sCreated_of_ne s a b now1 c.id (hchats c hc)]
      rw [hmr] at hpair
      unfold idSetIsPair at hpair
      simp only [Bool.and_eq_true] at hpair
      obtain ⟨⟨_, hanya⟩, hanyb⟩ := hpair
      unfold memberIds at hanya hanyb
      exact hclean c hc htype' ⟨any_userId_of_map hanya, any_userId_of_map hanyb⟩
    rw [hold]
    have hmrX : memberRows (sCreated s a b now1) s.currentChatId =
        [{ id := s.currentChatMemberId, chatId := s.currentChatId, userId := a,
           joinedAt := now1 },
         { id := s.currentChatMemberId + 1, chatId := s.currentChatId, userId := b,
           joinedAt := now1 }] := by
      unfold memberRows sCreated
      simp only [List.filter_append]
      have h0 : s.chatMembers.filter (fun m => m.chatId == s.currentChatId) = [] :=
        List.filter_eq_nil_iff.mpr (fun m hm => by simp [hrows m hm])
      rw [h0]
      simp
    have hids : memberIds (sCreated s a b now1) s.currentChatId = [a, b] := by
      unfold memberIds
      rw [hmrX]
      rfl
    simp [List.countP_cons, hids, idSetIsPair]

/-- Witness for C1: alice (1) and bob (2) on `storeAB`; the first call uses
`(1, 2)`, the second the reversed order `(2, 1)`. -/
theorem findOrCreateDirect_idempotent_witness :
    (findOrCreateDirect (findOrCreateDirect storeAB 1 2 10).2 2 1 20).2 =
      (findOrCreateDirect storeAB 1 2 10).2 ∧
    (findOrCreateDirect (findOrCreateDirect storeAB 1 2 10).2 2 1 20).1 =
      (findOrCreateDirect storeAB 1 2 10).1 ∧
    (∃ cw, (findOrCreateDirect storeAB 1 2 10).1 = some cw ∧
      cw.chat.id = storeAB.currentChatId ∧ cw.chat.type = "direct") ∧
    ((findOrCreateDirect (findOrCreateDirect storeAB 1 2 10).2 2 1 20).2.chats.countP
      (fun c => c.type == "direct" &&
        idSetIsPair (memberIds
          (findOrCreateDirect (findOrCreateDirect storeAB 1 2 10).2 2 1 20).2 c.id) 1 2)) =
      1 :=
  findOrCreateDirect_idempotent storeAB 1 2 2 1 10 20 (by decide) (by decide) (by decide)
    (by decide) (by decide) (by decide) (Or.inr rfl)
